import Mathlib

/-!
A verification development for a Conway's Game-of-Life engine
(`Universe` in `src/lib.rs`).  The Rust code is shallowly embedded:

* `u32`/`usize` values are modelled as `Nat` (the claims under
  consideration all assume arithmetic stays in range), `i32` offsets as
  `Int`;
* operations that can panic in Rust (indexing out of bounds, `%` by a
  zero dimension) are modelled in `Option`, with `none` standing for a
  panic;
* `set_cells` mutates in place pair by pair, so a panic on a later pair
  leaves earlier writes visible to the caller; it is therefore modelled
  as returning the state reached so far together with a `Bool` that is
  `true` iff every write succeeded.
-/

/-- `Cell` from the source: `Dead = 0`, `Alive = 1`. -/
inductive Cell : Type where
  | Dead : Cell
  | Alive : Cell
deriving DecidableEq, Repr

/-- The numeric value of a cell (`repr(u8)` in the source: Dead = 0, Alive = 1);
used where the source does `cell as u8`. -/
def Cell.toNat : Cell → Nat
  | Cell.Dead => 0
  | Cell.Alive => 1

/-- `Cell::toggle` from the source. -/
def Cell.toggle : Cell → Cell
  | Cell.Alive => Cell.Dead
  | Cell.Dead => Cell.Alive

/-- The `Universe` struct from the source: `width`, `height` (`u32`) and the
row-major flat buffer `cells` (`Vec<Cell>`). -/
structure Universe : Type where
  width : Nat
  height : Nat
  cells : List Cell
deriving DecidableEq, Repr

/-- `Universe::get_index`: `(row * self.width + column) as usize`. -/
def Universe.get_index (u : Universe) (row column : Nat) : Nat :=
  row * u.width + column

/-- `Universe::get_cells`: a read-only view of the buffer. -/
def Universe.get_cells (u : Universe) : List Cell :=
  u.cells

/-- The well-formedness invariant `cells.length == width * height`. -/
def Universe.Wf (u : Universe) : Prop :=
  u.cells.length = u.width * u.height

instance (u : Universe) : Decidable u.Wf := by
  unfold Universe.Wf; infer_instance

/-- `Universe::set_cells`: for each `(row, col)` pair in order, write
`Cell::Alive` at `get_index(row, col)`.  The write `self.cells[idx] = Alive`
panics when `idx` is out of bounds; the returned `Bool` is `false` in that
case, and the returned state holds the writes made before the panic. -/
def Universe.set_cells (u : Universe) : List (Nat × Nat) → Universe × Bool
  | [] => (u, true)
  | (row, col) :: rest =>
    let idx := u.get_index row col
    if idx < u.cells.length then
      Universe.set_cells { u with cells := u.cells.set idx Cell.Alive } rest
    else
      (u, false)

/-- The eight `(d_r, d_c)` offsets visited by `live_neighbor_count`, in loop
order (`d_r` outer from -1 to 1, `d_c` inner from -1 to 1, skipping `(0,0)`). -/
def neighborOffsets : List (Int × Int) :=
  [(-1, -1), (-1, 0), (-1, 1), (0, -1), (0, 1), (1, -1), (1, 0), (1, 1)]

/-- The body of the `live_neighbor_count` loop, folded over the remaining
offsets with the running `count`.  Each iteration computes
`n_r = (row as i32 + d_r + height as i32) as u32 % height` (and `n_c`
likewise) and adds `cells[get_index(n_r, n_c)] as u8` to the count.
`% 0` and an out-of-bounds index panic, modelled as `none`; the `% height`
for `n_r` is evaluated before the `% width` for `n_c`, as in the source. -/
def Universe.lncLoop (u : Universe) (row column : Nat) :
    List (Int × Int) → Nat → Option Nat
  | [], count => some count
  | (d_r, d_c) :: rest, count =>
    if u.height = 0 then none
    else if u.width = 0 then none
    else
      let n_r : Nat := ((row : Int) + d_r + (u.height : Int)).toNat % u.height
      let n_c : Nat := ((column : Int) + d_c + (u.width : Int)).toNat % u.width
      match u.cells[u.get_index n_r n_c]? with
      | some cell => Universe.lncLoop u row column rest (count + cell.toNat)
      | none => none

/-- `Universe::live_neighbor_count`. -/
def Universe.live_neighbor_count (u : Universe) (row column : Nat) : Option Nat :=
  u.lncLoop row column neighborOffsets 0

/-- The transition rule, the `match (cell, live_neighbors)` inside `tick`,
with the arms kept in source order. -/
def nextCell (cell : Cell) (live_neighbors : Nat) : Cell :=
  if cell = Cell.Alive ∧ live_neighbors < 2 then Cell.Dead
  else if cell = Cell.Alive ∧ (live_neighbors = 2 ∨ live_neighbors = 3) then Cell.Alive
  else if cell = Cell.Alive ∧ live_neighbors > 3 then Cell.Dead
  else if cell = Cell.Dead ∧ live_neighbors = 3 then Cell.Alive
  else cell

/-- One iteration of `tick`'s inner loop body: read `self.cells[idx]` and the
live-neighbor count from the pre-tick state `u`, then write the transition
result into the scratch buffer `next_gen` (here `acc`).  Reads and the write
panic (`none`) when out of bounds. -/
def Universe.tickStep (u : Universe) (row : Nat) (acc : List Cell) (column : Nat) :
    Option (List Cell) :=
  let idx := u.get_index row column
  (u.cells[idx]?).bind (fun cell =>
    (u.live_neighbor_count row column).bind (fun live_neighbors =>
      if idx < acc.length then some (acc.set idx (nextCell cell live_neighbors))
      else none))

/-- `for column in 0..k` of `tick`'s inner loop: processes columns
`0, 1, …, k-1` in increasing order. -/
def Universe.tickCols (u : Universe) (row : Nat) : Nat → List Cell → Option (List Cell)
  | 0, acc => some acc
  | k + 1, acc => (Universe.tickCols u row k acc).bind (fun acc' => u.tickStep row acc' k)

/-- `for row in 0..k` of `tick`'s outer loop: processes rows
`0, 1, …, k-1` in increasing order, each over all `width` columns. -/
def Universe.tickRows (u : Universe) : Nat → List Cell → Option (List Cell)
  | 0, acc => some acc
  | k + 1, acc => (Universe.tickRows u k acc).bind (fun acc' => u.tickCols k u.width acc')

/-- `Universe::tick`: clone `cells` into `next_gen`, run the double loop
against the pre-tick `cells`, then swap `next_gen` in. -/
def Universe.tick (u : Universe) : Option Universe :=
  (u.tickRows u.height u.cells).map (fun next_gen => { u with cells := next_gen })

/-- `Universe::set_width`: store the new width, then rebuild `cells` as
`(0..(self.width * self.height)).map(|_| Cell::Dead)`. -/
def Universe.set_width (u : Universe) (width : Nat) : Universe :=
  { u with
    width := width
    cells := (List.range (width * u.height)).map (fun _ => Cell.Dead) }

/-- `Universe::set_height`: store the new height, then rebuild `cells` as
`(0..(self.width * self.height)).map(|_| Cell::Dead)`. -/
def Universe.set_height (u : Universe) (height : Nat) : Universe :=
  { u with
    height := height
    cells := (List.range (u.width * height)).map (fun _ => Cell.Dead) }

/-- `Universe::new`: 128 × 128, cell `x` Alive iff `x % 2 == 0 || x % 7 == 0`. -/
def Universe.new : Universe :=
  { width := 128
    height := 128
    cells := (List.range (128 * 128)).map
      (fun x => if x % 2 = 0 ∨ x % 7 = 0 then Cell.Alive else Cell.Dead) }

/-- `Universe::toggle_cell`: toggle `self.cells[get_index(row, col)]` in
place; the indexing panics (`none`) when out of bounds. -/
def Universe.toggle_cell (u : Universe) (row col : Nat) : Option Universe :=
  let idx := u.get_index row col
  match u.cells[idx]? with
  | some cell => some { u with cells := u.cells.set idx cell.toggle }
  | none => none

/-- A 5 × 5 grid holding a horizontal blinker: row 2, columns 1-3 Alive. -/
def blinkerH : Universe :=
  { width := 5, height := 5
    cells :=
      [Cell.Dead, Cell.Dead, Cell.Dead, Cell.Dead, Cell.Dead,
       Cell.Dead, Cell.Dead, Cell.Dead, Cell.Dead, Cell.Dead,
       Cell.Dead, Cell.Alive, Cell.Alive, Cell.Alive, Cell.Dead,
       Cell.Dead, Cell.Dead, Cell.Dead, Cell.Dead, Cell.Dead,
       Cell.Dead, Cell.Dead, Cell.Dead, Cell.Dead, Cell.Dead] }

/-- A 5 × 5 grid holding a vertical blinker: column 2, rows 1-3 Alive. -/
def blinkerV : Universe :=
  { width := 5, height := 5
    cells :=
      [Cell.Dead, Cell.Dead, Cell.Dead, Cell.Dead, Cell.Dead,
       Cell.Dead, Cell.Dead, Cell.Alive, Cell.Dead, Cell.Dead,
       Cell.Dead, Cell.Dead, Cell.Alive, Cell.Dead, Cell.Dead,
       Cell.Dead, Cell.Dead, Cell.Alive, Cell.Dead, Cell.Dead,
       Cell.Dead, Cell.Dead, Cell.Dead, Cell.Dead, Cell.Dead] }

/-! ### Helper lemmas -/

theorem get_index_lt (u : Universe) {r c : Nat} (hr : r < u.height) (hc : c < u.width) :
    u.get_index r c < u.width * u.height := by
  unfold Universe.get_index
  calc r * u.width + c < r * u.width + u.width := by omega
    _ = (r + 1) * u.width := by ring
    _ ≤ u.height * u.width := Nat.mul_le_mul_right _ hr
    _ = u.width * u.height := Nat.mul_comm _ _

theorem get_index_inj (u : Universe) {r₁ c₁ r₂ c₂ : Nat}
    (h₁ : c₁ < u.width) (h₂ : c₂ < u.width)
    (h : u.get_index r₁ c₁ = u.get_index r₂ c₂) : r₁ = r₂ ∧ c₁ = c₂ := by
  have hw : 0 < u.width := by omega
  unfold Universe.get_index at h
  have hr : r₁ = r₂ := by
    have e₁ : (r₁ * u.width + c₁) / u.width = r₁ := by
      rw [Nat.mul_comm r₁ u.width, Nat.mul_add_div hw, Nat.div_eq_of_lt h₁]; omega
    have e₂ : (r₂ * u.width + c₂) / u.width = r₂ := by
      rw [Nat.mul_comm r₂ u.width, Nat.mul_add_div hw, Nat.div_eq_of_lt h₂]; omega
    rw [← e₁, ← e₂, h]
  refine ⟨hr, ?_⟩
  subst hr
  omega

theorem list_set_getElem_self {α : Type} (l : List α) (i : Nat) (h : i < l.length) :
    l.set i l[i] = l := by
  apply List.ext_getElem?
  intro j
  by_cases hj : i = j
  · subst hj
    rw [List.getElem?_set_self']
    simp [List.getElem?_eq_getElem h]
  · rw [List.getElem?_set_ne hj]

theorem Cell.toggle_toggle (c : Cell) : c.toggle.toggle = c := by
  cases c <;> rfl

/-! ### Claim theorems -/

/-- Claim C3: `new()` returns a Universe with width 128, height 128 and a
buffer of `128 * 128` cells where the cell at flat index `i` is Alive iff
`i % 2 = 0` or `i % 7 = 0`, and Dead otherwise. -/
theorem new_spec :
    Universe.new.width = 128 ∧ Universe.new.height = 128 ∧
    Universe.new.cells.length = 128 * 128 ∧
    ∀ i, i < 128 * 128 →
      Universe.new.cells[i]? =
        some (if i % 2 = 0 ∨ i % 7 = 0 then Cell.Alive else Cell.Dead) := by
  refine ⟨rfl, rfl, by simp [Universe.new], ?_⟩
  intro i hi
  simp [Universe.new, List.getElem?_range hi]

/-- Witness for C3 at index 7: `7 % 7 = 0`, so the cell is Alive. -/
theorem new_spec_witness : Universe.new.cells[7]? = some Cell.Alive := by
  have h := new_spec.2.2.2 7 (by decide)
  simpa using h

/-- Claim C5: `set_width w` stores width `w` and replaces the whole buffer
with all-Dead cells of length `w * height`, so every in-range read afterwards
returns Dead; `set_height h` behaves symmetrically with length `width * h`. -/
theorem set_width_set_height_reset (u : Universe) (w h : Nat) :
    (u.set_width w).width = w ∧ (u.set_width w).height = u.height ∧
    (u.set_width w).cells.length = w * u.height ∧
    (∀ i, i < w * u.height → (u.set_width w).cells[i]? = some Cell.Dead) ∧
    (u.set_height h).height = h ∧ (u.set_height h).width = u.width ∧
    (u.set_height h).cells.length = u.width * h ∧
    (∀ i, i < u.width * h → (u.set_height h).cells[i]? = some Cell.Dead) := by
  refine ⟨rfl, rfl, by simp [Universe.set_width], ?_, rfl, rfl,
    by simp [Universe.set_height], ?_⟩
  · intro i hi
    simp [Universe.set_width, List.getElem?_replicate, hi]
  · intro i hi
    simp [Universe.set_height, List.getElem?_replicate, hi]

/-- Witness for C5: shrinking `new` (whose cell 0 is Alive) to width 2 gives
an all-Dead buffer, and reading cell 0 now returns Dead. -/
theorem set_width_set_height_reset_witness :
    (Universe.new.set_width 2).cells[0]? = some Cell.Dead :=
  (set_width_set_height_reset Universe.new 2 3).2.2.2.1 0 (by decide)

/-- Claim C9: on a well-formed Universe with in-range `(row, col)`,
`toggle_cell` succeeds, and toggling the same coordinate again restores the
whole Universe to its original state. -/
theorem list_getD_set_self {α : Type} (l : List α) (i : Nat) (a d : α)
    (h : i < l.length) : (l.set i a).getD i d = a := by
  rw [List.getD_eq_getElem?_getD, List.getElem?_set_eq_of_lt a h]
  rfl

theorem list_set_getD_self {α : Type} (l : List α) (i : Nat) (d : α)
    (h : i < l.length) : l.set i (l.getD i d) = l := by
  rw [List.getD_eq_getElem?_getD, List.getElem?_eq_getElem h]
  exact list_set_getElem_self l i h

theorem toggle_cell_eq (u : Universe) (row col : Nat)
    (h : u.get_index row col < u.cells.length) :
    u.toggle_cell row col =
      some ⟨u.width, u.height,
        u.cells.set (u.get_index row col)
          ((u.cells.getD (u.get_index row col) Cell.Dead).toggle)⟩ := by
  unfold Universe.toggle_cell
  dsimp only
  rw [List.getElem?_eq_getElem h]
  have hD : u.cells.getD (u.get_index row col) Cell.Dead = u.cells[u.get_index row col] := by
    rw [List.getD_eq_getElem?_getD, List.getElem?_eq_getElem h]
    rfl
  rw [hD]

/-- Claim C9: on a well-formed Universe with in-range `(row, col)`,
`toggle_cell` succeeds, and toggling the same coordinate again restores the
whole Universe to its original state. -/
theorem toggle_cell_involutive (u : Universe) (row col : Nat) (wf : u.Wf)
    (hr : row < u.height) (hc : col < u.width) :
    ∃ u₁, u.toggle_cell row col = some u₁ ∧ u₁.toggle_cell row col = some u := by
  have hidx : u.get_index row col < u.cells.length := by
    rw [wf]; exact get_index_lt u hr hc
  have h1 := toggle_cell_eq u row col hidx
  refine ⟨_, h1, ?_⟩
  have hidx₁ : (⟨u.width, u.height,
      u.cells.set (u.get_index row col)
        ((u.cells.getD (u.get_index row col) Cell.Dead).toggle)⟩ : Universe).get_index row col
      < (u.cells.set (u.get_index row col)
        ((u.cells.getD (u.get_index row col) Cell.Dead).toggle)).length := by
    show u.get_index row col < _
    rw [List.length_set]
    exact hidx
  have h2 := toggle_cell_eq _ row col hidx₁
  rw [h2]
  show some (⟨u.width, u.height, _⟩ : Universe) = some u
  have e : ((u.cells.set (u.get_index row col)
      ((u.cells.getD (u.get_index row col) Cell.Dead).toggle)).getD
      (u.get_index row col) Cell.Dead)
      = (u.cells.getD (u.get_index row col) Cell.Dead).toggle :=
    list_getD_set_self _ _ _ _ hidx
  rw [show ((⟨u.width, u.height,
      u.cells.set (u.get_index row col)
        ((u.cells.getD (u.get_index row col) Cell.Dead).toggle)⟩ : Universe).get_index row col)
    = u.get_index row col from rfl, e, List.set_set, Cell.toggle_toggle,
    list_set_getD_self u.cells _ _ hidx]

/-- Witness for C9 on a concrete 2 × 2 grid at (1, 0). -/
theorem toggle_cell_involutive_witness :
    ∃ u₁, (Universe.mk 2 2 [Cell.Dead, Cell.Alive, Cell.Dead, Cell.Alive]).toggle_cell 1 0
        = some u₁ ∧
      u₁.toggle_cell 1 0
        = some (Universe.mk 2 2 [Cell.Dead, Cell.Alive, Cell.Dead, Cell.Alive]) :=
  toggle_cell_involutive ⟨2, 2, [Cell.Dead, Cell.Alive, Cell.Dead, Cell.Alive]⟩ 1 0
    (by decide) (by decide) (by decide)

/-- Claim C7: on a 5 × 5 grid, a horizontal blinker becomes the vertical
blinker about the same center after one tick, the two phases differ, and a
second tick restores the original grid. -/
theorem blinker_oscillates :
    blinkerH.tick = some blinkerV ∧ blinkerV.tick = some blinkerH ∧
    (blinkerV == blinkerH) = false := by
  refine ⟨by decide, by decide, by decide⟩

/-- Counterexample to claim C2: on the zero-width universe obtained from
`set_width(0)` (width 0, height 3, empty buffer), `tick` does not panic or
divide by zero; it completes and returns the universe unchanged, because the
per-cell loops iterate zero times and never reach `live_neighbor_count`. -/
theorem tick_zero_width_no_panic :
    (Universe.mk 0 3 []).tick = some (Universe.mk 0 3 []) := by decide

/-- Claim C2 (amended): `tick` on a universe whose width or height is 0 is
well-defined and leaves the universe unchanged, since the row/column loops
are empty and neighbor counting is never invoked; `live_neighbor_count`
itself, called directly with a zero dimension, does hit a modulo by zero. -/
theorem tick_zero_dimension_noop (u : Universe) (h : u.width = 0 ∨ u.height = 0) :
    u.tick = some u ∧ ∀ row col, u.live_neighbor_count row col = none := by
  constructor
  · unfold Universe.tick
    have hrows : u.tickRows u.height u.cells = some u.cells := by
      rcases h with hw | hh
      · have hall : ∀ k acc, u.tickRows k acc = some acc := by
          intro k
          induction k with
          | zero => intro acc; rfl
          | succ n ih =>
            intro acc
            unfold Universe.tickRows
            rw [ih acc, hw]
            rfl
        exact hall u.height u.cells
      · rw [hh]
        rfl
    rw [hrows]
    rfl
  · intro row col
    rcases h with hw | hh
    · by_cases hh0 : u.height = 0
      · simp [Universe.live_neighbor_count, neighborOffsets, Universe.lncLoop, hh0]
      · simp [Universe.live_neighbor_count, neighborOffsets, Universe.lncLoop, hh0, hw]
    · simp [Universe.live_neighbor_count, neighborOffsets, Universe.lncLoop, hh]

/-- Witness for the amended C2 on the zero-height universe
obtained from `set_height(0)`. -/
theorem tick_zero_dimension_noop_witness :
    (Universe.mk 5 0 []).tick = some (Universe.mk 5 0 []) ∧
    ∀ row col, (Universe.mk 5 0 []).live_neighbor_count row col = none :=
  tick_zero_dimension_noop ⟨5, 0, []⟩ (Or.inr rfl)

theorem lncLoop_const (u : Universe) (row col : Nat) (v : Cell) (wf : u.Wf)
    (hconst : ∀ c ∈ u.cells, c = v) (hw : 0 < u.width) (hh : 0 < u.height) :
    ∀ (offs : List (Int × Int)) (n : Nat),
      u.lncLoop row col offs n = some (n + offs.length * v.toNat) := by
  intro offs
  induction offs with
  | nil =>
    intro n
    simp [Universe.lncLoop]
  | cons d rest ih =>
    intro n
    obtain ⟨d_r, d_c⟩ := d
    unfold Universe.lncLoop
    rw [if_neg (by omega), if_neg (by omega)]
    dsimp only
    have hnr : (((row : Int) + d_r + (u.height : Int)).toNat) % u.height < u.height :=
      Nat.mod_lt _ hh
    have hnc : (((col : Int) + d_c + (u.width : Int)).toNat) % u.width < u.width :=
      Nat.mod_lt _ hw
    have hlt : u.get_index ((((row : Int) + d_r + (u.height : Int)).toNat) % u.height)
        ((((col : Int) + d_c + (u.width : Int)).toNat) % u.width) < u.cells.length := by
      rw [wf]
      exact get_index_lt u hnr hnc
    rw [List.getElem?_eq_getElem hlt]
    have hcell : u.cells[u.get_index ((((row : Int) + d_r + (u.height : Int)).toNat) % u.height)
        ((((col : Int) + d_c + (u.width : Int)).toNat) % u.width)] = v :=
      hconst _ (List.getElem_mem hlt)
    rw [hcell]
    show u.lncLoop row col rest (n + v.toNat) = some (n + (rest.length + 1) * v.toNat)
    rw [ih]
    congr 1
    ring

theorem live_neighbor_count_const_eq (u : Universe) (row col : Nat) (v : Cell)
    (wf : u.Wf) (hconst : ∀ c ∈ u.cells, c = v) (hw : 0 < u.width) (hh : 0 < u.height) :
    u.live_neighbor_count row col = some (8 * v.toNat) := by
  unfold Universe.live_neighbor_count
  rw [lncLoop_const u row col v wf hconst hw hh]
  norm_num [neighborOffsets]

/-- Claim C6: on a well-formed grid with positive dimensions and in-range
`(row, col)`, `live_neighbor_count` returns 0 when every cell is Dead and 8
when every cell is Alive — at every position, corners and edges included,
via the toroidal wrap. -/
theorem live_neighbor_count_const_grids (u : Universe) (row col : Nat) (wf : u.Wf)
    (hh : 1 ≤ u.height) (hw : 1 ≤ u.width) (hr : row < u.height) (hc : col < u.width) :
    ((∀ c ∈ u.cells, c = Cell.Dead) → u.live_neighbor_count row col = some 0) ∧
    ((∀ c ∈ u.cells, c = Cell.Alive) → u.live_neighbor_count row col = some 8) := by
  constructor
  · intro hA
    have h := live_neighbor_count_const_eq u row col Cell.Dead wf hA hw hh
    simpa [Cell.toNat] using h
  · intro hA
    have h := live_neighbor_count_const_eq u row col Cell.Alive wf hA hw hh
    simpa [Cell.toNat] using h

/-- Witness for C6: the corner (0, 0) of an all-Alive 2 × 2 grid has 8 live
neighbors (toroidal wrap). -/
theorem live_neighbor_count_const_grids_witness :
    (Universe.mk 2 2 [Cell.Alive, Cell.Alive, Cell.Alive, Cell.Alive]).live_neighbor_count 0 0
      = some 8 :=
  (live_neighbor_count_const_grids ⟨2, 2, [Cell.Alive, Cell.Alive, Cell.Alive, Cell.Alive]⟩
    0 0 (by decide) (by decide) (by decide) (by decide) (by decide)).2 (by decide)

theorem tickStep_length {u : Universe} {row : Nat} {acc : List Cell} {col : Nat}
    {res : List Cell} (h : u.tickStep row acc col = some res) :
    res.length = acc.length := by
  unfold Universe.tickStep at h
  dsimp only at h
  rw [Option.bind_eq_some] at h
  obtain ⟨cell, -, h⟩ := h
  rw [Option.bind_eq_some] at h
  obtain ⟨live, -, h⟩ := h
  split at h
  · cases h
    exact List.length_set acc _ _
  · simp at h

theorem tickCols_length {u : Universe} {row : Nat} :
    ∀ {k : Nat} {acc res : List Cell}, u.tickCols row k acc = some res →
      res.length = acc.length := by
  intro k
  induction k with
  | zero =>
    intro acc res h
    cases h
    rfl
  | succ n ih =>
    intro acc res h
    unfold Universe.tickCols at h
    rw [Option.bind_eq_some] at h
    obtain ⟨mid, hmid, h⟩ := h
    exact (tickStep_length h).trans (ih hmid)

theorem tickRows_length {u : Universe} :
    ∀ {k : Nat} {acc res : List Cell}, u.tickRows k acc = some res →
      res.length = acc.length := by
  intro k
  induction k with
  | zero =>
    intro acc res h
    cases h
    rfl
  | succ n ih =>
    intro acc res h
    unfold Universe.tickRows at h
    rw [Option.bind_eq_some] at h
    obtain ⟨mid, hmid, h⟩ := h
    exact (tickCols_length h).trans (ih hmid)

/-- Claim C10: whenever `tick` completes, the width, the height and the
length of the cell buffer are exactly what they were before the call. -/
theorem tick_preserves_dimensions (u u' : Universe) (h : u.tick = some u') :
    u'.width = u.width ∧ u'.height = u.height ∧ u'.cells.length = u.cells.length := by
  unfold Universe.tick at h
  rw [Option.map_eq_some'] at h
  obtain ⟨next_gen, hrows, h⟩ := h
  subst h
  exact ⟨rfl, rfl, tickRows_length hrows⟩

/-- Witness for C10 on a concrete 1 × 1 universe (the lone Alive cell dies of
overpopulation, dimensions and buffer length are unchanged). -/
theorem tick_preserves_dimensions_witness :
    (Universe.mk 1 1 [Cell.Dead]).width = (Universe.mk 1 1 [Cell.Alive]).width ∧
    (Universe.mk 1 1 [Cell.Dead]).height = (Universe.mk 1 1 [Cell.Alive]).height ∧
    (Universe.mk 1 1 [Cell.Dead]).cells.length = (Universe.mk 1 1 [Cell.Alive]).cells.length :=
  tick_preserves_dimensions ⟨1, 1, [Cell.Alive]⟩ ⟨1, 1, [Cell.Dead]⟩ (by decide)

theorem lncLoop_isSome (u : Universe) (row col : Nat) (wf : u.Wf)
    (hw : 0 < u.width) (hh : 0 < u.height) :
    ∀ (offs : List (Int × Int)) (n : Nat), ∃ m, u.lncLoop row col offs n = some m := by
  intro offs
  induction offs with
  | nil =>
    intro n
    exact ⟨n, rfl⟩
  | cons d rest ih =>
    intro n
    obtain ⟨d_r, d_c⟩ := d
    unfold Universe.lncLoop
    rw [if_neg (by omega), if_neg (by omega)]
    dsimp only
    have hnr : (((row : Int) + d_r + (u.height : Int)).toNat) % u.height < u.height :=
      Nat.mod_lt _ hh
    have hnc : (((col : Int) + d_c + (u.width : Int)).toNat) % u.width < u.width :=
      Nat.mod_lt _ hw
    have hlt : u.get_index ((((row : Int) + d_r + (u.height : Int)).toNat) % u.height)
        ((((col : Int) + d_c + (u.width : Int)).toNat) % u.width) < u.cells.length := by
      rw [wf]
      exact get_index_lt u hnr hnc
    rw [List.getElem?_eq_getElem hlt]
    obtain ⟨m, hm⟩ := ih (n + (u.cells[u.get_index
      ((((row : Int) + d_r + (u.height : Int)).toNat) % u.height)
      ((((col : Int) + d_c + (u.width : Int)).toNat) % u.width)]).toNat)
    exact ⟨m, hm⟩

theorem live_neighbor_count_isSome (u : Universe) (row col : Nat) (wf : u.Wf)
    (hw : 0 < u.width) (hh : 0 < u.height) :
    ∃ live, u.live_neighbor_count row col = some live :=
  lncLoop_isSome u row col wf hw hh neighborOffsets 0

theorem tickStep_eq (u : Universe) (wf : u.Wf) {row col : Nat}
    (hr : row < u.height) (hc : col < u.width) (acc : List Cell)
    (hacc : acc.length = u.cells.length) :
    ∃ cell live, u.cells[u.get_index row col]? = some cell ∧
      u.live_neighbor_count row col = some live ∧
      u.tickStep row acc col = some (acc.set (u.get_index row col) (nextCell cell live)) := by
  have hidx : u.get_index row col < u.cells.length := by
    rw [wf]
    exact get_index_lt u hr hc
  obtain ⟨live, hlive⟩ := live_neighbor_count_isSome u row col wf (by omega) (by omega)
  refine ⟨u.cells[u.get_index row col], live, List.getElem?_eq_getElem hidx, hlive, ?_⟩
  unfold Universe.tickStep
  dsimp only
  rw [List.getElem?_eq_getElem hidx, hlive]
  simp only [Option.some_bind]
  rw [if_pos (by rw [hacc]; exact hidx)]

theorem tickCols_spec (u : Universe) (wf : u.Wf) {row : Nat} (hr : row < u.height) :
    ∀ (k : Nat), k ≤ u.width → ∀ (acc : List Cell), acc.length = u.cells.length →
      ∃ res, u.tickCols row k acc = some res ∧ res.length = acc.length ∧
        (∀ j, (∀ c, c < k → j ≠ u.get_index row c) → res[j]? = acc[j]?) ∧
        (∀ c, c < k → ∃ cell live, u.cells[u.get_index row c]? = some cell ∧
          u.live_neighbor_count row c = some live ∧
          res[u.get_index row c]? = some (nextCell cell live)) := by
  intro k
  induction k with
  | zero =>
    intro _ acc hacc
    exact ⟨acc, rfl, rfl, fun j _ => rfl, fun c hc => absurd hc (Nat.not_lt_zero c)⟩
  | succ n ih =>
    intro hk acc hacc
    obtain ⟨res_n, hres_n, hlen_n, hframe_n, hval_n⟩ := ih (by omega) acc hacc
    have hcn : n < u.width := by omega
    obtain ⟨cell, live, hcell, hlive, hstep⟩ :=
      tickStep_eq u wf hr hcn res_n (hlen_n.trans hacc)
    refine ⟨res_n.set (u.get_index row n) (nextCell cell live), ?_, ?_, ?_, ?_⟩
    · unfold Universe.tickCols
      rw [hres_n]
      exact hstep
    · rw [List.length_set]
      exact hlen_n
    · intro j hj
      rw [List.getElem?_set_ne (Ne.symm (hj n (by omega)))]
      exact hframe_n j (fun c hc => hj c (by omega))
    · intro c hc
      by_cases hceq : c = n
      · subst hceq
        refine ⟨cell, live, hcell, hlive, ?_⟩
        have hlt : u.get_index row c < res_n.length := by
          rw [hlen_n, hacc, wf]
          exact get_index_lt u hr hcn
        exact List.getElem?_set_eq_of_lt _ hlt
      · obtain ⟨cell', live', h1, h2, h3⟩ := hval_n c (by omega)
        refine ⟨cell', live', h1, h2, ?_⟩
        have hne : u.get_index row n ≠ u.get_index row c := by
          unfold Universe.get_index
          omega
        rw [List.getElem?_set_ne hne]
        exact h3

theorem tickRows_spec (u : Universe) (wf : u.Wf) :
    ∀ (k : Nat), k ≤ u.height → ∀ (acc : List Cell), acc.length = u.cells.length →
      ∃ res, u.tickRows k acc = some res ∧ res.length = acc.length ∧
        (∀ j, (∀ r c, r < k → c < u.width → j ≠ u.get_index r c) → res[j]? = acc[j]?) ∧
        (∀ r c, r < k → c < u.width → ∃ cell live,
          u.cells[u.get_index r c]? = some cell ∧
          u.live_neighbor_count r c = some live ∧
          res[u.get_index r c]? = some (nextCell cell live)) := by
  intro k
  induction k with
  | zero =>
    intro _ acc hacc
    exact ⟨acc, rfl, rfl, fun j _ => rfl, fun r c hr => absurd hr (Nat.not_lt_zero r)⟩
  | succ n ih =>
    intro hk acc hacc
    obtain ⟨res_n, hres_n, hlen_n, hframe_n, hval_n⟩ := ih (by omega) acc hacc
    have hrn : n < u.height := by omega
    obtain ⟨res, hres, hlen, hframe_c, hval_c⟩ :=
      tickCols_spec u wf hrn u.width (Nat.le_refl _) res_n (hlen_n.trans hacc)
    refine ⟨res, ?_, hlen.trans hlen_n, ?_, ?_⟩
    · unfold Universe.tickRows
      rw [hres_n]
      exact hres
    · intro j hj
      rw [hframe_c j (fun c hc => hj n c (by omega) hc)]
      exact hframe_n j (fun r c hr hc => hj r c (by omega) hc)
    · intro r c hr hc
      by_cases hreq : r = n
      · subst hreq
        exact hval_c c hc
      · obtain ⟨cell, live, h1, h2, h3⟩ := hval_n r c (by omega) hc
        refine ⟨cell, live, h1, h2, ?_⟩
        rw [hframe_c _ ?_]
        · exact h3
        · intro c' hc' heq
          exact hreq (get_index_inj u hc hc' heq).1

theorem nextCell_rule (live : Nat) :
    (live < 2 → nextCell Cell.Alive live = Cell.Dead) ∧
    nextCell Cell.Alive 2 = Cell.Alive ∧ nextCell Cell.Alive 3 = Cell.Alive ∧
    (3 < live → nextCell Cell.Alive live = Cell.Dead) ∧
    (live = 3 → nextCell Cell.Dead live = Cell.Alive) ∧
    (live ≠ 3 → nextCell Cell.Dead live = Cell.Dead) := by
  unfold nextCell
  refine ⟨fun h => ?_, by decide, by decide, fun h => ?_, fun h => ?_, fun h => ?_⟩ <;>
    split_ifs <;> simp_all <;> omega

/-- Claim C1: on a well-formed universe with positive dimensions, `tick`
succeeds and replaces the buffer with the next generation: each cell's new
value is `nextCell` of its pre-tick value and its pre-tick live-neighbor
count (both read from the pre-tick `cells`, so no update can see another
cell's new value), and `nextCell` is exactly the classic rule: Alive with
fewer than 2 → Dead, Alive with 2 or 3 → Alive, Alive with more than 3 →
Dead, Dead with exactly 3 → Alive, anything else unchanged. -/
theorem tick_computes_next_generation (u : Universe) (wf : u.Wf)
    (hw : 1 ≤ u.width) (hh : 1 ≤ u.height) :
    ∃ u', u.tick = some u' ∧
      (∀ row col, row < u.height → col < u.width →
        ∃ cell live, u.cells[u.get_index row col]? = some cell ∧
          u.live_neighbor_count row col = some live ∧
          u'.cells[u.get_index row col]? = some (nextCell cell live)) ∧
      (∀ live, (live < 2 → nextCell Cell.Alive live = Cell.Dead) ∧
        nextCell Cell.Alive 2 = Cell.Alive ∧ nextCell Cell.Alive 3 = Cell.Alive ∧
        (3 < live → nextCell Cell.Alive live = Cell.Dead) ∧
        (live = 3 → nextCell Cell.Dead live = Cell.Alive) ∧
        (live ≠ 3 → nextCell Cell.Dead live = Cell.Dead)) := by
  obtain ⟨res, hres, hlen, hframe, hval⟩ :=
    tickRows_spec u wf u.height (Nat.le_refl _) u.cells rfl
  refine ⟨⟨u.width, u.height, res⟩, ?_, ?_, fun live => nextCell_rule live⟩
  · unfold Universe.tick
    rw [hres]
    rfl
  · intro row col hr hc
    exact hval row col hr hc

/-- Witness for C1 at the 1 × 1 all-Alive universe: the cell reads itself 8
times as neighbor and dies of overpopulation. -/
theorem tick_computes_next_generation_witness :
    ∃ u', (Universe.mk 1 1 [Cell.Alive]).tick = some u' ∧
      (∀ row col, row < (Universe.mk 1 1 [Cell.Alive]).height →
        col < (Universe.mk 1 1 [Cell.Alive]).width →
        ∃ cell live,
          (Universe.mk 1 1 [Cell.Alive]).cells[(Universe.mk 1 1 [Cell.Alive]).get_index row col]?
            = some cell ∧
          (Universe.mk 1 1 [Cell.Alive]).live_neighbor_count row col = some live ∧
          u'.cells[(Universe.mk 1 1 [Cell.Alive]).get_index row col]?
            = some (nextCell cell live)) ∧
      (∀ live, (live < 2 → nextCell Cell.Alive live = Cell.Dead) ∧
        nextCell Cell.Alive 2 = Cell.Alive ∧ nextCell Cell.Alive 3 = Cell.Alive ∧
        (3 < live → nextCell Cell.Alive live = Cell.Dead) ∧
        (live = 3 → nextCell Cell.Dead live = Cell.Alive) ∧
        (live ≠ 3 → nextCell Cell.Dead live = Cell.Dead)) :=
  tick_computes_next_generation ⟨1, 1, [Cell.Alive]⟩ (by decide) (by decide) (by decide)

theorem set_cells_cons_pos (u : Universe) (row col : Nat) (rest : List (Nat × Nat))
    (h : u.get_index row col < u.cells.length) :
    u.set_cells ((row, col) :: rest) =
      ({ u with cells := u.cells.set (u.get_index row col) Cell.Alive }).set_cells rest := by
  unfold Universe.set_cells
  dsimp only
  rw [if_pos h]
  cases rest with
  | nil => rfl
  | cons q rest => rfl

theorem set_cells_cons_neg (u : Universe) (row col : Nat) (rest : List (Nat × Nat))
    (h : ¬ u.get_index row col < u.cells.length) :
    u.set_cells ((row, col) :: rest) = (u, false) := by
  unfold Universe.set_cells
  dsimp only
  rw [if_neg h]

theorem set_cells_frame_all (pairs : List (Nat × Nat)) :
    ∀ u : Universe, (u.set_cells pairs).1.width = u.width ∧
      (u.set_cells pairs).1.height = u.height ∧
      (u.set_cells pairs).1.cells.length = u.cells.length := by
  induction pairs with
  | nil =>
    intro u
    exact ⟨rfl, rfl, rfl⟩
  | cons p rest ih =>
    intro u
    obtain ⟨row, col⟩ := p
    by_cases hidx : u.get_index row col < u.cells.length
    · rw [set_cells_cons_pos u row col rest hidx]
      obtain ⟨h1, h2, h3⟩ := ih { u with cells := u.cells.set (u.get_index row col) Cell.Alive }
      exact ⟨h1, h2, h3.trans (List.length_set u.cells _ _)⟩
    · rw [set_cells_cons_neg u row col rest hidx]
      exact ⟨rfl, rfl, rfl⟩

theorem set_cells_spec_aux (pairs : List (Nat × Nat)) :
    ∀ u : Universe, u.Wf → (∀ p ∈ pairs, p.1 < u.height ∧ p.2 < u.width) →
      (u.set_cells pairs).2 = true ∧
      (∀ p ∈ pairs, (u.set_cells pairs).1.cells[u.get_index p.1 p.2]? = some Cell.Alive) ∧
      (∀ r c, r < u.height → c < u.width → (∀ p ∈ pairs, ¬(p.1 = r ∧ p.2 = c)) →
        (u.set_cells pairs).1.cells[u.get_index r c]? = u.cells[u.get_index r c]?) := by
  induction pairs with
  | nil =>
    intro u _ _
    exact ⟨rfl, by simp, fun r c _ _ _ => rfl⟩
  | cons p rest ih =>
    intro u wf hin
    obtain ⟨row, col⟩ := p
    have hrow : row < u.height := (hin (row, col) (List.mem_cons_self _ _)).1
    have hcol : col < u.width := (hin (row, col) (List.mem_cons_self _ _)).2
    have hidx : u.get_index row col < u.cells.length := by
      rw [wf]
      exact get_index_lt u hrow hcol
    have heq := set_cells_cons_pos u row col rest hidx
    have wf' : ({ u with cells := u.cells.set (u.get_index row col) Cell.Alive } : Universe).Wf := by
      unfold Universe.Wf
      show (u.cells.set _ _).length = u.width * u.height
      rw [List.length_set]
      exact wf
    have hin' : ∀ p ∈ rest,
        p.1 < ({ u with cells := u.cells.set (u.get_index row col) Cell.Alive } : Universe).height ∧
        p.2 < ({ u with cells := u.cells.set (u.get_index row col) Cell.Alive } : Universe).width :=
      fun p hp => hin p (List.mem_cons_of_mem _ hp)
    obtain ⟨hdone, halive, hframe⟩ := ih _ wf' hin'
    have hgi : ∀ a b,
        ({ u with cells := u.cells.set (u.get_index row col) Cell.Alive } : Universe).get_index a b
          = u.get_index a b := fun a b => rfl
    refine ⟨by rw [heq]; exact hdone, ?_, ?_⟩
    · intro p hp
      rw [heq]
      rcases List.mem_cons.mp hp with hpe | hpr
      · subst hpe
        by_cases hmem : ∃ q ∈ rest, q.1 = row ∧ q.2 = col
        · obtain ⟨q, hq, hq1, hq2⟩ := hmem
          have halq := halive q hq
          rw [hgi, hq1, hq2] at halq
          exact halq
        · push_neg at hmem
          have hfr := hframe row col hrow hcol (fun q hq hcontra =>
            hmem q hq hcontra.1 hcontra.2)
          rw [hgi] at hfr
          rw [hfr]
          exact List.getElem?_set_eq_of_lt Cell.Alive hidx
      · have halq := halive p hpr
        rw [hgi] at halq
        exact halq
    · intro r c hric hcic hnp
      rw [heq]
      have hne : u.get_index row col ≠ u.get_index r c := by
        intro hcontra
        exact hnp (row, col) (List.mem_cons_self _ _) (get_index_inj u hcol hcic hcontra)
      have hfr := hframe r c hric hcic (fun p hp => hnp p (List.mem_cons_of_mem _ hp))
      rw [hgi] at hfr
      rw [hfr]
      exact List.getElem?_set_ne hne

theorem set_cells_append (l1 : List (Nat × Nat)) :
    ∀ (u : Universe) (l2 : List (Nat × Nat)), (u.set_cells l1).2 = true →
      u.set_cells (l1 ++ l2) = (u.set_cells l1).1.set_cells l2 := by
  induction l1 with
  | nil =>
    intro u l2 _
    rfl
  | cons p rest ih =>
    intro u l2 hdone
    obtain ⟨row, col⟩ := p
    by_cases hidx : u.get_index row col < u.cells.length
    · have heq2 : u.set_cells (((row, col) :: rest) ++ l2) =
          ({ u with cells := u.cells.set (u.get_index row col) Cell.Alive }).set_cells
            (rest ++ l2) :=
        set_cells_cons_pos u row col (rest ++ l2) hidx
      rw [heq2, set_cells_cons_pos u row col rest hidx]
      apply ih
      rw [set_cells_cons_pos u row col rest hidx] at hdone
      exact hdone
    · rw [set_cells_cons_neg u row col rest hidx] at hdone
      simp at hdone

/-- Claim C8: on a well-formed universe, `set_cells` with in-range pairs
completes, sets exactly the listed positions to Alive, leaves every other
cell (and the dimensions and buffer length) unchanged, and does not clear
anything first; moreover pairs are applied in list order with no rollback:
after a successfully processed prefix, the remaining pairs act on the state
the prefix produced, so a later out-of-range pair cannot undo earlier
writes. -/
theorem set_cells_exact :
    (∀ (u : Universe) (pairs : List (Nat × Nat)), u.Wf →
      (∀ p ∈ pairs, p.1 < u.height ∧ p.2 < u.width) →
      (u.set_cells pairs).2 = true ∧
      (u.set_cells pairs).1.width = u.width ∧
      (u.set_cells pairs).1.height = u.height ∧
      (u.set_cells pairs).1.cells.length = u.cells.length ∧
      (∀ p ∈ pairs, (u.set_cells pairs).1.cells[u.get_index p.1 p.2]? = some Cell.Alive) ∧
      (∀ r c, r < u.height → c < u.width → (∀ p ∈ pairs, ¬(p.1 = r ∧ p.2 = c)) →
        (u.set_cells pairs).1.cells[u.get_index r c]? = u.cells[u.get_index r c]?)) ∧
    (∀ (u : Universe) (l1 l2 : List (Nat × Nat)), (u.set_cells l1).2 = true →
      u.set_cells (l1 ++ l2) = (u.set_cells l1).1.set_cells l2) := by
  constructor
  · intro u pairs wf hin
    obtain ⟨h1, h2, h3⟩ := set_cells_spec_aux pairs u wf hin
    obtain ⟨hw, hh, hl⟩ := set_cells_frame_all pairs u
    exact ⟨h1, hw, hh, hl, h2, h3⟩
  · intro u l1 l2 h
    exact set_cells_append l1 u l2 h

/-- Witness for C8: on an all-Dead 2 × 2 grid, `set_cells [(0,1), (1,0)]`
makes the cell at (0, 1) Alive. -/
theorem set_cells_exact_witness :
    ((Universe.mk 2 2 [Cell.Dead, Cell.Dead, Cell.Dead, Cell.Dead]).set_cells
        [(0, 1), (1, 0)]).1.cells[
      (Universe.mk 2 2 [Cell.Dead, Cell.Dead, Cell.Dead, Cell.Dead]).get_index 0 1]?
      = some Cell.Alive :=
  (set_cells_exact.1 ⟨2, 2, [Cell.Dead, Cell.Dead, Cell.Dead, Cell.Dead]⟩
    [(0, 1), (1, 0)] (by decide) (by decide)).2.2.2.2.1 (0, 1) (by decide)

/-- Claim C4: the invariant `cells.length = width * height` holds for
`new()` and is preserved by `set_width`, `set_height`, `tick`,
`toggle_cell` and `set_cells` (under in-range coordinates, which make the
fallible operations succeed). -/
theorem length_invariant_preserved :
    Universe.new.Wf ∧
    (∀ (u : Universe) (w : Nat), (u.set_width w).Wf) ∧
    (∀ (u : Universe) (h : Nat), (u.set_height h).Wf) ∧
    (∀ (u u' : Universe), u.Wf → u.tick = some u' → u'.Wf) ∧
    (∀ (u : Universe) (row col : Nat) (u' : Universe), u.Wf → row < u.height →
      col < u.width → u.toggle_cell row col = some u' → u'.Wf) ∧
    (∀ (u : Universe) (pairs : List (Nat × Nat)), u.Wf →
      (∀ p ∈ pairs, p.1 < u.height ∧ p.2 < u.width) →
      (u.set_cells pairs).1.Wf) := by
  refine ⟨?_, ?_, ?_, ?_, ?_, ?_⟩
  · unfold Universe.Wf Universe.new
    simp
  · intro u w
    unfold Universe.Wf Universe.set_width
    simp
  · intro u h
    unfold Universe.Wf Universe.set_height
    simp
  · intro u u' wf h
    unfold Universe.tick at h
    rw [Option.map_eq_some'] at h
    obtain ⟨next_gen, hrows, h⟩ := h
    subst h
    unfold Universe.Wf
    show next_gen.length = u.width * u.height
    rw [tickRows_length hrows]
    exact wf
  · intro u row col u' wf hr hc h
    have hidx : u.get_index row col < u.cells.length := by
      rw [wf]
      exact get_index_lt u hr hc
    rw [toggle_cell_eq u row col hidx] at h
    injection h with h'
    subst h'
    unfold Universe.Wf
    show (u.cells.set _ _).length = u.width * u.height
    rw [List.length_set]
    exact wf
  · intro u pairs wf hin
    obtain ⟨hw, hh, hl⟩ := set_cells_frame_all pairs u
    unfold Universe.Wf
    rw [hl, hw, hh]
    exact wf

/-- Witness for C4: `tick` on the well-formed 1 × 1 all-Alive universe
yields a well-formed universe. -/
theorem length_invariant_preserved_witness :
    (Universe.mk 1 1 [Cell.Dead]).Wf :=
  length_invariant_preserved.2.2.2.1 ⟨1, 1, [Cell.Alive]⟩ ⟨1, 1, [Cell.Dead]⟩
    (by decide) (by decide)
